import Mathlib

/-!
Shallow embedding of the graffiti-wall ledger codec and transaction
assembly from the repository source (the `GraffitiWallComponent` module:
`serializeGraffitiData`, `fetchWallData`, `handleAddToWall`).

Modelling conventions:
* Byte buffers (`Uint8Array`) are `List Nat`, each element a byte value.
* Human text is represented by its UTF-8 byte sequence: the platform
  `TextEncoder`/`TextDecoder` pair is an external bijection between valid
  text and its UTF-8 bytes, so a string is identified with the byte list
  produced by `TextEncoder().encode`.
* `DataView.getUint32`/`getBigInt64` throw a `RangeError` when the
  requested window exceeds the buffer; modelled as `Option` (with `none`
  for the throw).  `Uint8Array.prototype.slice` clamps to the buffer
  bounds and never throws; modelled by `drop`/`take`, which clamp the
  same way.
* `Array.prototype.sort` is required by the ECMAScript standard to be
  stable; modelled by `List.mergeSort`, which is stable.
* The React state pair touched by `fetchWallData` (`wallData`, `error`)
  is modelled as an explicit state record, and `fetchWallData` as a pure
  state transformer on it.
-/

namespace Graffiti

/-- A decoded wall entry (the `GraffitiMessage` class of the source):
a timestamp and the name/message text, text as UTF-8 bytes. -/
structure GraffitiMessage where
  timestamp : Int
  name : List Nat
  message : List Nat
deriving Repr, DecidableEq

/-- Little-endian value of a byte list (least significant byte first). -/
def leNat : List Nat → Nat
  | [] => 0
  | b :: rest => b % 256 + 256 * leNat rest

/-- Twos-complement reinterpretation of a 64-bit unsigned value as a
signed integer, as `DataView.getBigInt64` performs. -/
def toI64 (n : Nat) : Int :=
  if n % 2 ^ 64 < 2 ^ 63 then ((n % 2 ^ 64 : Nat) : Int)
  else ((n % 2 ^ 64 : Nat) : Int) - 2 ^ 64

/-- `new DataView(buf).getUint32(off, true)`: little-endian unsigned
32-bit read; `none` models the `RangeError` thrown past the end. -/
def getUint32LE (buf : List Nat) (off : Nat) : Option Nat :=
  if off + 4 ≤ buf.length then some (leNat ((buf.drop off).take 4)) else none

/-- `new DataView(buf).getBigInt64(off, true)`: little-endian signed
64-bit read; `none` models the `RangeError` thrown past the end. -/
def getBigInt64LE (buf : List Nat) (off : Nat) : Option Int :=
  if off + 8 ≤ buf.length then some (toI64 (leNat ((buf.drop off).take 8))) else none

/-- `buf.slice(start, start + len)` on a `Uint8Array`: clamps to the
buffer bounds, never throws. -/
def sliceBytes (buf : List Nat) (start len : Nat) : List Nat :=
  (buf.drop start).take len

/-- `bytes.filter(x => x !== 0)`: the zero-byte stripping the decoder
applies to both text fields before UTF-8 decoding. -/
def stripZeros (bs : List Nat) : List Nat :=
  bs.filter (fun x => x ≠ 0)

/-- One iteration of the record loop in `fetchWallData`, reading the
record that starts at byte offset `off`: 8-byte little-endian signed
timestamp, then 16 name bytes and 64 message bytes, each stripped of
zero bytes.  Only the timestamp read can throw (`none`); the two
`slice` calls clamp. -/
def decodeRecord (buf : List Nat) (off : Nat) : Option GraffitiMessage :=
  match getBigInt64LE buf off with
  | none => none
  | some ts =>
    some { timestamp := ts
           name := stripZeros (sliceBytes buf (off + 8) 16)
           message := stripZeros (sliceBytes buf (off + 24) 64) }

/-- The record loop of `fetchWallData`: decode `count` records starting
at offset `off`, each record advancing the offset by 88 bytes. -/
def decodeRecords (buf : List Nat) : Nat → Nat → Option (List GraffitiMessage)
  | 0, _ => some []
  | n + 1, off =>
    match decodeRecord buf off with
    | none => none
    | some m =>
      match decodeRecords buf n (off + 88) with
      | none => none
      | some ms => some (m :: ms)

/-- The parsing part of `fetchWallData` on a buffer of length ≥ 4:
read the 4-byte little-endian record count at offset 0, then the
records from offset 4.  `none` models the thrown `RangeError` that the
surrounding `try`/`catch` turns into an error message. -/
def parseWallBuffer (buf : List Nat) : Option (List GraffitiMessage) :=
  match getUint32LE buf 0 with
  | none => none
  | some count => decodeRecords buf count 4

/-- The comparator `(a, b) => b.timestamp - a.timestamp` orders `a`
before `b` exactly when `b.timestamp ≤ a.timestamp` holds (ties keep
input order under the stable sort the ECMAScript standard requires). -/
def tsDescLE (a b : GraffitiMessage) : Bool :=
  b.timestamp ≤ a.timestamp

/-- `messages.sort((a, b) => b.timestamp - a.timestamp)`: stable sort by
descending timestamp. -/
def sortByTimestampDesc (l : List GraffitiMessage) : List GraffitiMessage :=
  l.mergeSort tsDescLE

/-- The diagnostics `fetchWallData` can surface via `setError`. -/
inductive UIError where
  /-- The message saying the account was not found. -/
  | accountNotFound
  /-- The failed-to-fetch-wall-data message from the `catch` block. -/
  | fetchFailed
deriving Repr, DecidableEq

/-- The slice of React state that `fetchWallData` reads and writes. -/
structure ComponentState where
  wallData : List GraffitiMessage
  error : Option UIError
deriving Repr, DecidableEq

/-- The account record returned by `client.readAccountInfo`; only its
`data` field is used, which may itself be absent. -/
structure AccountInfo where
  data : Option (List Nat)

/-- `fetchWallData`, as a state transformer: given the fetched account
(`none` when `readAccountInfo` returned nothing) and the current
component state, produce the next component state.
* no account: set the account-not-found error, leave `wallData` alone;
* absent `data` or fewer than 4 bytes: present an empty wall, clear
  the error;
* parse success: present the records sorted by descending timestamp
  (the error state is not touched on this path);
* parse throw: the `catch` block sets the fetch-failed error and does
  not touch `wallData`. -/
def fetchWallDataStep (userAccount : Option AccountInfo)
    (s : ComponentState) : ComponentState :=
  match userAccount with
  | none => { s with error := some .accountNotFound }
  | some acct =>
    match acct.data with
    | none => { wallData := [], error := none }
    | some buf =>
      if buf.length < 4 then { wallData := [], error := none }
      else
        match parseWallBuffer buf with
        | none => { s with error := some .fetchFailed }
        | some msgs => { s with wallData := sortByTimestampDesc msgs }

/-- `new Uint8Array(w).fill(0)` followed by `.set(bs.slice(0, w))`:
the first `min w bs.length` bytes of `bs`, zero-filled to width `w`. -/
def padToWidth (w : Nat) (bs : List Nat) : List Nat :=
  bs.take w ++ List.replicate (w - (bs.take w).length) 0

/-- `serializeGraffitiData(name, message)`: the 16-byte zero-padded
name field followed by the 64-byte zero-padded message field.  The
borsh serialization of the `{name: [u8; 16], message: [u8; 64]}` schema
is exactly the 80 field bytes in order, with no prefix. -/
def serializeGraffitiData (name message : List Nat) : List Nat :=
  padToWidth 16 name ++ padToWidth 64 message

/-- The transaction envelope passed to `client.sendTransaction`;
the message component is kept abstract. -/
structure ArchTransaction (α : Type) where
  version : Nat
  signatures : List (List Nat)
  message : α
deriving Repr, DecidableEq

/-- The slice-by-2 applied to the base64-decoded wallet signature in
`handleAddToWall`; `decoded` is the byte list the base64 decoding of
the signature string produced. -/
def signatureFromWallet (decoded : List Nat) : List Nat :=
  decoded.drop 2

/-- The envelope built in `handleAddToWall`:
`{version: 0, signatures: [signatureBytes], message: messageObj}`. -/
def finalizeTransaction {α : Type} (decodedSignature : List Nat) (msg : α) :
    ArchTransaction α :=
  { version := 0
    signatures := [signatureFromWallet decodedSignature]
    message := msg }

/-! ### Helper lemmas -/

theorem padToWidth_length (w : Nat) (bs : List Nat) :
    (padToWidth w bs).length = w := by
  simp only [padToWidth, List.length_append, List.length_take, List.length_replicate]
  omega

theorem stripZeros_replicate_zero : ∀ n : Nat,
    stripZeros (List.replicate n 0) = []
  | 0 => rfl
  | n + 1 => stripZeros_replicate_zero n

theorem stripZeros_append (xs ys : List Nat) :
    stripZeros (xs ++ ys) = stripZeros xs ++ stripZeros ys := by
  simp [stripZeros]

theorem padToWidth_of_length_le {w : Nat} {bs : List Nat}
    (h : bs.length ≤ w) :
    padToWidth w bs = bs ++ List.replicate (w - bs.length) 0 := by
  simp [padToWidth, List.take_of_length_le h]

theorem stripZeros_padToWidth {w : Nat} {bs : List Nat}
    (hle : bs.length ≤ w) (hz : stripZeros bs = bs) :
    stripZeros (padToWidth w bs) = bs := by
  rw [padToWidth_of_length_le hle, stripZeros_append, hz,
    stripZeros_replicate_zero, List.append_nil]

/-! ### C2: the encoder -/

/-- C2: for all inputs, `serializeGraffitiData` returns exactly 80
bytes; the first 16 bytes are the first `min 16 (length name)` bytes of
the UTF-8 encoding of the name, zero-filled to 16; the remaining 64
bytes are built from the message the same way; and the empty string
encodes to an all-zero field.  (Determinism is immediate: the encoder
is a pure function of its two arguments.) -/
theorem serializeGraffitiData_spec (name msg : List Nat) :
    (serializeGraffitiData name msg).length = 80 ∧
    (serializeGraffitiData name msg).take 16 =
      name.take 16 ++ List.replicate (16 - min 16 name.length) 0 ∧
    (serializeGraffitiData name msg).drop 16 =
      msg.take 64 ++ List.replicate (64 - min 64 msg.length) 0 ∧
    serializeGraffitiData [] [] = List.replicate 80 0 := by
  refine ⟨?_, ?_, ?_, by decide⟩
  · simp [serializeGraffitiData, padToWidth_length]
  · rw [serializeGraffitiData, List.take_left' (padToWidth_length 16 name)]
    simp [padToWidth, List.length_take]
  · rw [serializeGraffitiData, List.drop_left' (padToWidth_length 16 name)]
    simp [padToWidth, List.length_take]

/-! ### C8: signature handling and the transaction envelope -/

/-- C8: the assembler strips exactly the first two bytes of the decoded
signature (the stripped part together with the kept signature bytes
reassembles the decoded input), and the finalized envelope is exactly
version 0, that single signature, and the previously built message. -/
theorem finalizeTransaction_spec {α : Type} (sig : List Nat) (m : α) :
    (finalizeTransaction sig m).version = 0 ∧
    (finalizeTransaction sig m).signatures = [sig.drop 2] ∧
    (finalizeTransaction sig m).message = m ∧
    sig.take 2 ++ sig.drop 2 = sig :=
  ⟨rfl, rfl, rfl, List.take_append_drop 2 sig⟩

/-! ### C4: absent or short account buffers -/

/-- C4: when the account data is absent or shorter than 4 bytes, the
wall decoder presents an empty sequence of entries and clears the error
state (the defined uninitialized-wall state, not an error). -/
theorem fetchWallDataStep_short (acct : AccountInfo) (s : ComponentState)
    (h : ∀ buf, acct.data = some buf → buf.length < 4) :
    fetchWallDataStep (some acct) s = { wallData := [], error := none } := by
  match hd : acct.data with
  | none => simp [fetchWallDataStep, hd]
  | some buf => simp [fetchWallDataStep, hd, h buf hd]

/-- Witness for C4 at a concrete 3-byte buffer. -/
theorem fetchWallDataStep_short_witness :
    fetchWallDataStep (some ⟨some [7, 7, 7]⟩)
        ⟨[⟨1, [65], [66]⟩], some .fetchFailed⟩ =
      ⟨[], none⟩ :=
  fetchWallDataStep_short ⟨some [7, 7, 7]⟩ ⟨[⟨1, [65], [66]⟩], some .fetchFailed⟩
    (fun buf hb => by injection hb with h; subst h; decide)

/-- Characterization of a record decode that lies inside the buffer,
phrased on the 88-byte window the record occupies: the timestamp is the
little-endian signed 64-bit value of window bytes 0 to 7, the name is
the zero-stripped window bytes 8 to 23, and the message is the
zero-stripped window bytes 24 to 87. -/
theorem decodeRecord_eq_window (buf : List Nat) (off : Nat)
    (h : off + 88 ≤ buf.length) :
    decodeRecord buf off =
      some { timestamp := toI64 (leNat ((sliceBytes buf off 88).take 8))
             name := stripZeros (((sliceBytes buf off 88).drop 8).take 16)
             message := stripZeros (((sliceBytes buf off 88).drop 24).take 64) } := by
  have h8 : off + 8 ≤ buf.length := by omega
  simp only [decodeRecord, getBigInt64LE, if_pos h8, sliceBytes]
  have e1 : ((buf.drop off).take 88).take 8 = (buf.drop off).take 8 := by
    rw [List.take_take]; norm_num
  have e2 : (((buf.drop off).take 88).drop 8).take 16 = (buf.drop (off + 8)).take 16 := by
    rw [List.drop_take, List.take_take, List.drop_drop]; norm_num
  have e3 : (((buf.drop off).take 88).drop 24).take 64 = (buf.drop (off + 24)).take 64 := by
    rw [List.drop_take, List.take_take, List.drop_drop]; norm_num
  rw [e1, e2, e3]

/-! ### C3: layout of a single record decode -/

/-- C3: a record decode whose 88-byte window lies inside the buffer
reads window bytes 0 to 7 as a little-endian signed 64-bit timestamp,
window bytes 8 to 23 as the name field, and window bytes 24 to 87 as
the message field, removing every zero byte of each text field
(embedded as well as trailing) before the UTF-8 decode. -/
theorem decodeRecord_layout (buf : List Nat) (off : Nat)
    (h : off + 88 ≤ buf.length) :
    decodeRecord buf off =
      some { timestamp := toI64 (leNat ((sliceBytes buf off 88).take 8))
             name := stripZeros (((sliceBytes buf off 88).drop 8).take 16)
             message := stripZeros (((sliceBytes buf off 88).drop 24).take 64) } :=
  decodeRecord_eq_window buf off h

/-- Witness for C3: an 88-byte buffer holding timestamp 5, a name field
with an embedded zero around the byte 65, and a zeroed message field. -/
theorem decodeRecord_layout_witness :
    0 + 88 ≤ (([5, 0, 0, 0, 0, 0, 0, 0] ++ ([0, 65, 0, 66] ++ List.replicate 12 0)
        ++ List.replicate 64 0).length) ∧
    decodeRecord ([5, 0, 0, 0, 0, 0, 0, 0] ++ ([0, 65, 0, 66] ++ List.replicate 12 0)
        ++ List.replicate 64 0) 0 =
      some { timestamp := toI64 (leNat ((sliceBytes ([5, 0, 0, 0, 0, 0, 0, 0]
               ++ ([0, 65, 0, 66] ++ List.replicate 12 0) ++ List.replicate 64 0) 0 88).take 8))
             name := stripZeros (((sliceBytes ([5, 0, 0, 0, 0, 0, 0, 0]
               ++ ([0, 65, 0, 66] ++ List.replicate 12 0) ++ List.replicate 64 0) 0 88).drop 8).take 16)
             message := stripZeros (((sliceBytes ([5, 0, 0, 0, 0, 0, 0, 0]
               ++ ([0, 65, 0, 66] ++ List.replicate 12 0) ++ List.replicate 64 0) 0 88).drop 24).take 64) } :=
  ⟨by decide, decodeRecord_layout _ 0 (by decide)⟩

/-! ### C7: record decode depends only on its 88-byte window -/

/-- C7: two record decodes whose in-bounds 88-byte windows hold
identical bytes produce identical entries; no decode step reads outside
the supplied window. -/
theorem decodeRecord_depends_only_on_window
    (b₁ b₂ : List Nat) (o₁ o₂ : Nat)
    (h₁ : o₁ + 88 ≤ b₁.length) (h₂ : o₂ + 88 ≤ b₂.length)
    (hw : sliceBytes b₁ o₁ 88 = sliceBytes b₂ o₂ 88) :
    decodeRecord b₁ o₁ = decodeRecord b₂ o₂ := by
  rw [decodeRecord_eq_window b₁ o₁ h₁, decodeRecord_eq_window b₂ o₂ h₂, hw]

/-- Witness for C7: the same record bytes surrounded by different
context in two different buffers, at different offsets. -/
theorem decodeRecord_depends_only_on_window_witness :
    decodeRecord (List.replicate 88 3) 0 =
      decodeRecord (List.replicate 7 9 ++ List.replicate 88 3 ++ [4]) 7 :=
  decodeRecord_depends_only_on_window _ _ 0 7 (by decide) (by decide) (by decide)

/-! ### C1: encode-then-decode round trip -/

/-- C1: for a name of at most 16 UTF-8 bytes and a message of at most
64 UTF-8 bytes, each unchanged by the zero-byte stripping of the
decoder, decoding the 88-byte record built from any 8 timestamp bytes
followed by the encoder output reproduces the name and message text
exactly. -/
theorem encode_decode_roundtrip (ts name msg : List Nat)
    (hts : ts.length = 8) (hn : name.length ≤ 16) (hm : msg.length ≤ 64)
    (hn0 : stripZeros name = name) (hm0 : stripZeros msg = msg) :
    decodeRecord (ts ++ serializeGraffitiData name msg) 0 =
      some { timestamp := toI64 (leNat ts), name := name, message := msg } := by
  have hlen : (ts ++ serializeGraffitiData name msg).length = 88 := by
    simp [serializeGraffitiData, hts, padToWidth_length]
  have h8 : 0 + 8 ≤ (ts ++ serializeGraffitiData name msg).length := by omega
  simp only [decodeRecord, getBigInt64LE, if_pos h8, sliceBytes, List.drop_zero]
  have ets : (ts ++ serializeGraffitiData name msg).take 8 = ts :=
    List.take_left' hts
  have ename : ((ts ++ serializeGraffitiData name msg).drop 8).take 16 =
      padToWidth 16 name := by
    rw [serializeGraffitiData, List.drop_left' hts,
      List.take_left' (padToWidth_length 16 name)]
  have emsg : ((ts ++ serializeGraffitiData name msg).drop 24).take 64 =
      padToWidth 64 msg := by
    rw [serializeGraffitiData, ← List.append_assoc,
      List.drop_left' (by simp [hts, padToWidth_length]),
      List.take_of_length_le (le_of_eq (padToWidth_length 64 msg))]
  rw [ets, ename, emsg, stripZeros_padToWidth hn hn0, stripZeros_padToWidth hm hm0]

/-- Witness for C1 at timestamp bytes for 5, name bytes of the letter A
and message bytes of the letters BC. -/
theorem encode_decode_roundtrip_witness :
    decodeRecord ([5, 0, 0, 0, 0, 0, 0, 0] ++ serializeGraffitiData [65] [66, 67]) 0 =
      some { timestamp := toI64 (leNat [5, 0, 0, 0, 0, 0, 0, 0])
             name := [65], message := [66, 67] } :=
  encode_decode_roundtrip [5, 0, 0, 0, 0, 0, 0, 0] [65] [66, 67]
    (by decide) (by decide) (by decide) (by decide) (by decide)

/-- A single record decode throws exactly when fewer than 8 bytes are
available for its timestamp read; the two text-field slices clamp and
never throw. -/
theorem decodeRecord_none_iff (buf : List Nat) (off : Nat) :
    decodeRecord buf off = none ↔ buf.length < off + 8 := by
  by_cases hb : off + 8 ≤ buf.length
  · simp only [decodeRecord, getBigInt64LE, if_pos hb]
    constructor
    · intro h; cases h
    · intro h; omega
  · simp only [decodeRecord, getBigInt64LE, if_neg hb]
    constructor
    · intro _; omega
    · intro _; trivial

theorem decodeRecords_succ_none (buf : List Nat) (n off : Nat) :
    decodeRecords buf (n + 1) off = none ↔
      decodeRecord buf off = none ∨ decodeRecords buf n (off + 88) = none := by
  cases hr : decodeRecord buf off with
  | none => rw [decodeRecords, hr]; simp
  | some m =>
    cases ht : decodeRecords buf n (off + 88) with
    | none => rw [decodeRecords, hr, ht]; simp
    | some ms => rw [decodeRecords, hr, ht]; simp

/-- The record loop throws exactly when the timestamp read of some
declared record falls outside the buffer. -/
theorem decodeRecords_none_iff (buf : List Nat) (count off : Nat) :
    decodeRecords buf count off = none ↔
      ∃ i, i < count ∧ buf.length < off + i * 88 + 8 := by
  induction count generalizing off with
  | zero => rw [decodeRecords]; simp
  | succ n ih =>
    rw [decodeRecords_succ_none, decodeRecord_none_iff, ih]
    constructor
    · rintro (h0 | ⟨i, hi, hlen⟩)
      · exact ⟨0, by omega, by omega⟩
      · exact ⟨i + 1, by omega, by omega⟩
    · rintro ⟨i, hi, hlen⟩
      cases i with
      | zero => left; omega
      | succ j => right; exact ⟨j, by omega, by omega⟩

/-! ### C5: declared count exceeding the buffer -/

/-- C5 counterexample: a 12-byte buffer declares one record but only 8
bytes follow the count, so fewer than 88 bytes remain for the declared
record; the claim says this must fail as a truncated buffer, yet the
decoder succeeds and returns the record with empty, silently clamped
text fields. -/
theorem parseWallBuffer_truncation_counterexample :
    getUint32LE ([1, 0, 0, 0] ++ List.replicate 8 0) 0 = some 1 ∧
    ([1, 0, 0, 0] ++ List.replicate 8 0).length < 4 + 1 * 88 ∧
    parseWallBuffer ([1, 0, 0, 0] ++ List.replicate 8 0) =
      some [{ timestamp := 0, name := [], message := [] }] :=
  ⟨by decide, by decide, by decide⟩

/-- C5 amended: the decoder fails (with the thrown range error the
catch block surfaces) exactly when the 8-byte timestamp read of some
declared record exceeds the buffer; in particular a 4-byte buffer
declaring one record fails.  A declared record whose timestamp bytes
fit decodes without error even when fewer than 88 bytes remain, its
text-field slices silently clamped to the available bytes. -/
theorem parseWallBuffer_failure_iff (buf : List Nat) (count : Nat)
    (hc : getUint32LE buf 0 = some count) :
    (parseWallBuffer buf = none ↔
      ∃ i, i < count ∧ buf.length < 4 + i * 88 + 8) := by
  rw [parseWallBuffer, hc]
  exact decodeRecords_none_iff buf count 4

/-- Witness for (amended) C5 at the 4-byte buffer declaring one
record, the concrete instance the claim names. -/
theorem parseWallBuffer_failure_iff_witness :
    getUint32LE [1, 0, 0, 0] 0 = some 1 ∧
    (parseWallBuffer [1, 0, 0, 0] = none ↔
      ∃ i, i < 1 ∧ ([1, 0, 0, 0] : List Nat).length < 4 + i * 88 + 8) :=
  ⟨by decide, parseWallBuffer_failure_iff [1, 0, 0, 0] 1 (by decide)⟩

/-! ### C9: behavior on a read-path decode failure -/

/-- C9 counterexample: after a wall with one entry has been presented,
fetching a corrupt buffer (4 bytes declaring one record) surfaces a
diagnostic but leaves the stale previously decoded entry on display;
the presented ledger is not empty, contradicting the claimed
empty-ledger presentation. -/
theorem fetch_failure_keeps_stale_counterexample :
    parseWallBuffer [1, 0, 0, 0] = none ∧
    (fetchWallDataStep (some ⟨some [1, 0, 0, 0]⟩)
        ⟨[⟨5, [65], [66]⟩], none⟩).error = some .fetchFailed ∧
    (fetchWallDataStep (some ⟨some [1, 0, 0, 0]⟩)
        ⟨[⟨5, [65], [66]⟩], none⟩).wallData = [⟨5, [65], [66]⟩] ∧
    ([⟨5, [65], [66]⟩] : List GraffitiMessage) ≠ [] :=
  ⟨by decide, by decide, by decide, by decide⟩

/-- C9 amended: on a read-path decode failure the reader does not
crash (the step is a total function) and surfaces a diagnostic, but it
does not present an empty ledger: the previously presented wall
content, stale as it may be, is left unchanged. -/
theorem fetch_decode_failure_behavior (buf : List Nat) (s : ComponentState)
    (h4 : ¬ buf.length < 4) (hp : parseWallBuffer buf = none) :
    fetchWallDataStep (some ⟨some buf⟩) s =
      { wallData := s.wallData, error := some .fetchFailed } := by
  simp [fetchWallDataStep, if_neg h4, hp]

/-- Witness for (amended) C9 at the corrupt 4-byte buffer and a state
already holding one entry. -/
theorem fetch_decode_failure_behavior_witness :
    ¬ ([1, 0, 0, 0] : List Nat).length < 4 ∧
    parseWallBuffer [1, 0, 0, 0] = none ∧
    fetchWallDataStep (some ⟨some [1, 0, 0, 0]⟩) ⟨[⟨7, [67], [68]⟩], none⟩ =
      { wallData := [⟨7, [67], [68]⟩], error := some .fetchFailed } :=
  ⟨by decide, by decide,
    fetch_decode_failure_behavior [1, 0, 0, 0] ⟨[⟨7, [67], [68]⟩], none⟩
      (by decide) (by decide)⟩

/-! ### C10: decoded text never contains a NUL -/

theorem zero_not_mem_stripZeros (bs : List Nat) : 0 ∉ stripZeros bs := by
  intro h
  have := List.of_mem_filter h
  simp at this

theorem decodeRecord_fields (buf : List Nat) (off : Nat) (m : GraffitiMessage)
    (h : decodeRecord buf off = some m) :
    m.name = stripZeros (sliceBytes buf (off + 8) 16) ∧
    m.message = stripZeros (sliceBytes buf (off + 24) 64) := by
  rw [decodeRecord] at h
  cases hg : getBigInt64LE buf off with
  | none => rw [hg] at h; cases h
  | some ts => rw [hg] at h; cases h; exact ⟨rfl, rfl⟩

theorem decodeRecords_no_nul (buf : List Nat) (count off : Nat)
    (msgs : List GraffitiMessage) (h : decodeRecords buf count off = some msgs) :
    ∀ m ∈ msgs, 0 ∉ m.name ∧ 0 ∉ m.message := by
  induction count generalizing off msgs with
  | zero =>
    rw [decodeRecords] at h
    cases h
    simp
  | succ n ih =>
    rw [decodeRecords] at h
    cases hr : decodeRecord buf off with
    | none => rw [hr] at h; cases h
    | some m =>
      rw [hr] at h
      cases ht : decodeRecords buf n (off + 88) with
      | none => rw [ht] at h; cases h
      | some ms =>
        rw [ht] at h
        cases h
        intro x hx
        rcases List.mem_cons.mp hx with rfl | hxs
        · obtain ⟨e1, e2⟩ := decodeRecord_fields buf off x hr
          rw [e1, e2]
          exact ⟨zero_not_mem_stripZeros _, zero_not_mem_stripZeros _⟩
        · exact ih (off + 88) ms ht x hxs

/-- C10: every entry a successful wall decode produces has a name and a
message free of the zero byte: any NUL stored in the fixed-width
fields, embedded or trailing, is absent from the decoded text. -/
theorem parseWallBuffer_no_nul (buf : List Nat) (msgs : List GraffitiMessage)
    (h : parseWallBuffer buf = some msgs) :
    ∀ m ∈ msgs, 0 ∉ m.name ∧ 0 ∉ m.message := by
  rw [parseWallBuffer] at h
  cases hc : getUint32LE buf 0 with
  | none => rw [hc] at h; cases h
  | some count => rw [hc] at h; exact decodeRecords_no_nul buf count 4 msgs h

/-- Witness for C10 on a buffer whose stored name field has both an
embedded and a trailing zero around the byte 65. -/
theorem parseWallBuffer_no_nul_witness :
    parseWallBuffer ([1, 0, 0, 0] ++ ([9, 0, 0, 0, 0, 0, 0, 0]
        ++ ([0, 65, 0, 66] ++ List.replicate 12 0) ++ List.replicate 64 0)) =
      some [⟨9, [65, 66], []⟩] ∧
    (∀ m ∈ ([⟨9, [65, 66], []⟩] : List GraffitiMessage),
      0 ∉ m.name ∧ 0 ∉ m.message) :=
  ⟨by decide,
    parseWallBuffer_no_nul ([1, 0, 0, 0] ++ ([9, 0, 0, 0, 0, 0, 0, 0]
        ++ ([0, 65, 0, 66] ++ List.replicate 12 0) ++ List.replicate 64 0))
      [⟨9, [65, 66], []⟩] (by decide)⟩

/-! ### C6: recency-first presentation order -/

theorem tsDescLE_trans : ∀ a b c : GraffitiMessage,
    tsDescLE a b → tsDescLE b c → tsDescLE a c := by
  intro a b c hab hbc
  simp only [tsDescLE, decide_eq_true_eq] at *
  omega

theorem tsDescLE_total : ∀ a b : GraffitiMessage,
    tsDescLE a b || tsDescLE b a := by
  intro a b
  simp only [tsDescLE, Bool.or_eq_true, decide_eq_true_eq]
  omega

/-- C6: on a successful decode the presented view is the decoded list
under the stable descending-timestamp sort: it is what the fetch step
stores, it is a permutation of the decoded list, consecutive entries
have non-increasing timestamps (strictly greater timestamps come
first), and for every timestamp value the entries carrying it appear in
exactly their decode order (stability on ties). -/
theorem fetchWallData_view_sorted (buf : List Nat) (msgs : List GraffitiMessage)
    (s : ComponentState) (h4 : ¬ buf.length < 4)
    (hp : parseWallBuffer buf = some msgs) :
    (fetchWallDataStep (some ⟨some buf⟩) s).wallData = sortByTimestampDesc msgs ∧
    (sortByTimestampDesc msgs).Perm msgs ∧
    (sortByTimestampDesc msgs).Pairwise (fun a b => b.timestamp ≤ a.timestamp) ∧
    ∀ t : Int, (sortByTimestampDesc msgs).filter (fun m => m.timestamp = t) =
      msgs.filter (fun m => m.timestamp = t) := by
  refine ⟨?_, ?_, ?_, ?_⟩
  · simp [fetchWallDataStep, if_neg h4, hp]
  · exact List.mergeSort_perm msgs tsDescLE
  · exact (List.sorted_mergeSort tsDescLE_trans tsDescLE_total msgs).imp
      (fun hab => by simpa [tsDescLE] using hab)
  · intro t
    have hsub : List.Sublist (msgs.filter fun m => decide (m.timestamp = t)) msgs :=
      List.filter_sublist msgs
    have hpair : (msgs.filter fun m => decide (m.timestamp = t)).Pairwise
        (fun a b => tsDescLE a b = true) := by
      apply List.pairwise_of_forall_mem_list
      intro a ha b hb
      have ha' := (List.mem_filter.mp ha).2
      have hb' := (List.mem_filter.mp hb).2
      simp only [decide_eq_true_eq] at ha' hb'
      simp [tsDescLE, ha', hb']
    have h1 : List.Sublist (msgs.filter fun m => decide (m.timestamp = t))
        (sortByTimestampDesc msgs) :=
      List.sublist_mergeSort tsDescLE_trans tsDescLE_total hpair hsub
    have hself : (msgs.filter fun m => decide (m.timestamp = t)).filter
        (fun m => decide (m.timestamp = t)) =
        msgs.filter fun m => decide (m.timestamp = t) :=
      List.filter_eq_self.mpr (fun a ha => (List.mem_filter.mp ha).2)
    have h2 : List.Sublist (msgs.filter fun m => decide (m.timestamp = t))
        ((sortByTimestampDesc msgs).filter (fun m => decide (m.timestamp = t))) := by
      have := h1.filter (fun m => decide (m.timestamp = t))
      rwa [hself] at this
    have hperm : ((sortByTimestampDesc msgs).filter
        (fun m => decide (m.timestamp = t))).Perm
        (msgs.filter fun m => decide (m.timestamp = t)) :=
      (List.mergeSort_perm msgs tsDescLE).filter _
    exact (h2.eq_of_length hperm.length_eq.symm).symm

set_option maxRecDepth 4000 in
/-- Witness for C6 at the buffer of the spec example with a tie:
decode order has timestamps 300, 100, 300; the presented view is the
two 300-entries in their decode order, then the 100-entry. -/
theorem fetchWallData_view_sorted_witness :
    parseWallBuffer ([3, 0, 0, 0]
        ++ ([44, 1, 0, 0, 0, 0, 0, 0] ++ ([65] ++ List.replicate 15 0) ++ List.replicate 64 0)
        ++ ([100, 0, 0, 0, 0, 0, 0, 0] ++ ([66] ++ List.replicate 15 0) ++ List.replicate 64 0)
        ++ ([44, 1, 0, 0, 0, 0, 0, 0] ++ ([67] ++ List.replicate 15 0) ++ List.replicate 64 0)) =
      some [⟨300, [65], []⟩, ⟨100, [66], []⟩, ⟨300, [67], []⟩] ∧
    (fetchWallDataStep (some ⟨some ([3, 0, 0, 0]
        ++ ([44, 1, 0, 0, 0, 0, 0, 0] ++ ([65] ++ List.replicate 15 0) ++ List.replicate 64 0)
        ++ ([100, 0, 0, 0, 0, 0, 0, 0] ++ ([66] ++ List.replicate 15 0) ++ List.replicate 64 0)
        ++ ([44, 1, 0, 0, 0, 0, 0, 0] ++ ([67] ++ List.replicate 15 0) ++ List.replicate 64 0))⟩)
        ⟨[], none⟩).wallData =
      [⟨300, [65], []⟩, ⟨300, [67], []⟩, ⟨100, [66], []⟩] := by
  refine ⟨by decide, ?_⟩
  have h := fetchWallData_view_sorted ([3, 0, 0, 0]
        ++ ([44, 1, 0, 0, 0, 0, 0, 0] ++ ([65] ++ List.replicate 15 0) ++ List.replicate 64 0)
        ++ ([100, 0, 0, 0, 0, 0, 0, 0] ++ ([66] ++ List.replicate 15 0) ++ List.replicate 64 0)
        ++ ([44, 1, 0, 0, 0, 0, 0, 0] ++ ([67] ++ List.replicate 15 0) ++ List.replicate 64 0))
      [⟨300, [65], []⟩, ⟨100, [66], []⟩, ⟨300, [67], []⟩] ⟨[], none⟩
      (by decide) (by decide)
  rw [h.1]
  simp [sortByTimestampDesc, List.mergeSort, List.splitInTwo, List.merge, tsDescLE]

end Graffiti
